import Mathlib

/-!
Verification of the ffcookies library (a Go package that reads Firefox
cookies from the browser's SQLite store and exposes them as HTTP cookies
and cookie jars).

The development shallowly embeds the package's functions:

* `Cookie` embeds `models.Cookie`, one row of the `moz_cookies` table.
* `HttpCookie` embeds the fields of Go's `http.Cookie` that the package
  populates; `time.Time` instants are represented as seconds since the
  Unix epoch (an `Int`), which is exact for `time.Unix(sec, 0)` values.
* `Convert` embeds `models.Convert`.
* The effectful parts (the SQL driver registry, `sql.Open`, the two
  generated queries, `os.UserHomeDir`, `os.ReadDir`, and a cancellable
  `context.Context`) are modelled by explicit environment records
  (`Env`, `FS`, `Context`); each retrieval function returns the list of
  store actions it performed together with its `Except` result, so that
  statements such as "the store is never opened" are expressible.
* Go standard-library string helpers used by the package
  (`strings.TrimPrefix`, `strings.HasSuffix`, `strings.ToLower`,
  `filepath.Join` on clean path elements) are modelled character-wise;
  all strings involved are ASCII, where the models agree with Go.
-/

namespace FFCookies

/-- One row of the `moz_cookies` table, as selected by the generated
queries: embeds `models.Cookie` (fields `Expiry int64`, `Host`, `Name`,
`Value`, `Path string`, `IsSecure`, `IsHTTPOnly bool`). -/
structure Cookie where
  expiry : Int
  host : String
  name : String
  value : String
  path : String
  isSecure : Bool
  isHTTPOnly : Bool
deriving DecidableEq, Repr

/-- The fields of Go's `http.Cookie` populated by `models.Convert`.
`Expires` is an absolute instant, represented as seconds since the Unix
epoch. -/
structure HttpCookie where
  Name : String
  Value : String
  Path : String
  Domain : String
  Expires : Int
  Secure : Bool
  HttpOnly : Bool
deriving DecidableEq, Repr

/-- The Unix epoch instant, in seconds since the Unix epoch. -/
def unixEpoch : Int := 0

/-- Models Go `time.Unix(sec, 0)`: the instant `sec` seconds after the
Unix epoch. -/
def timeUnix (sec : Int) : Int := unixEpoch + sec

/-- The body of the loop of `models.Convert`: the `http.Cookie` literal
built from one row (`SameSite` is intentionally left unset in the
source and hence not modelled). -/
def convertOne (c : Cookie) : HttpCookie :=
  { Name := c.name
    Value := c.value
    Path := c.path
    Domain := c.host
    Expires := timeUnix c.expiry
    Secure := c.isSecure
    HttpOnly := c.isHTTPOnly }

/-- Embeds `models.Convert`: appends `convertOne c` for each row `c` in
order, starting from the empty slice. -/
def Convert (res : List Cookie) : List HttpCookie :=
  res.map convertOne

end FFCookies

namespace FFCookies

/-- Example row used to instantiate witnesses. -/
def exRow : Cookie :=
  { expiry := 1700000000
    host := "example.com"
    name := "sid"
    value := "xyz"
    path := "/"
    isSecure := true
    isHTTPOnly := true }

/-- Example row with expiry 0, used to instantiate witnesses. -/
def exRowZero : Cookie :=
  { exRow with expiry := 0 }

end FFCookies

namespace FFCookies

/-- Character-list prefix test, used to model Go `strings.HasPrefix`. -/
def strHasPre : List Char → List Char → Bool
  | [], _ => true
  | _ :: _, [] => false
  | p :: ps, c :: cs => p == c && strHasPre ps cs

/-- Models Go `strings.TrimPrefix s pre`: removes `pre` from the start
of `s`, at most once; `s` is returned unchanged when `pre` is not a
prefix of it. -/
def trimLeading (s pre : String) : String :=
  if strHasPre pre.toList s.toList then
    List.asString (s.toList.drop pre.toList.length)
  else s

/-- Models Go `strings.HasSuffix s sfx` (character-wise). -/
def strHasSuffix (s sfx : String) : Bool :=
  strHasPre sfx.toList.reverse s.toList.reverse

/-- Models Go `strings.ToLower` on the ASCII strings used by the
package (URL schemes). -/
def strToLower (s : String) : String :=
  List.asString (s.toList.map Char.toLower)

/-- Number of leading `LIKE` wildcard characters of a character list. -/
def leadingWildcards (l : List Char) : Nat :=
  (l.takeWhile (fun ch => ch == '%')).length

/-- Number of leading `LIKE` wildcard characters of a string. -/
def leadingWildcardCount (s : String) : Nat :=
  leadingWildcards s.toList

/-- Joins the non-empty path elements with the separator; together with
the filter in `filepathJoin` this models Go `filepath.Join` on clean
path elements (where `Clean` is the identity). -/
def joinNonEmpty : List String → String
  | [] => ""
  | [x] => x
  | x :: xs => x ++ "/" ++ joinNonEmpty xs

/-- Models Go `filepath.Join` on clean path elements: empty elements
are dropped and the rest joined with the separator. -/
def filepathJoin (elems : List String) : String :=
  joinNonEmpty (elems.filter (fun e => !(e == "")))

/-- A cancellable execution context: models `context.Context` by
whether it has been cancelled (or timed out). -/
structure Context where
  cancelled : Bool
deriving DecidableEq, Repr

/-- Models `context.Background()`: a context that is never cancelled. -/
def Context.background : Context := ⟨false⟩

/-- The rows the backing store serves to each of the two generated
queries: `cookies` models the result set of `models.Cookies` (fetch
all) and `cookiesLikeHost` the result set of `models.CookiesLikeHost`
for a given `LIKE` pattern. The store is treated as an opaque queryable
collaborator. -/
structure DB where
  cookies : List Cookie
  cookiesLikeHost : String → List Cookie

/-- The ambient effectful environment of a retrieval call: the
process-wide driver registry (`sql.Drivers()`), whether `sql.Open`
fails, whether query execution fails, and the backing store. -/
structure Env where
  drivers : List String
  openErr : Option String
  queryErr : Option String
  db : DB

/-- Store-level actions a retrieval call performs, in order. -/
inductive Action where
  | openStore (locator : String)
  | queryAll
  | queryLikeHost (pattern : String)
deriving DecidableEq, Repr

/-- The errors the package can return. -/
inductive Err where
  | noDriver
  | openFail (msg : String)
  | queryFail (msg : String)
  | ctxCancelled
  | invalidScheme (s : String)
  | noProfileDir
  | readDirFail (msg : String)
deriving DecidableEq, Repr

/-- Embeds `driverName`: the first registered driver named `sqlite3`
or `sqlite`, or the empty string when none is registered. -/
def driverName (drivers : List String) : String :=
  match drivers.find? (fun n => n == "sqlite3" || n == "sqlite") with
  | some n => n
  | none => ""

/-- Embeds `ReadFileContext`: checks the driver registry, opens the
store, picks `models.Cookies` when `host` is empty and otherwise
`models.CookiesLikeHost` with the pattern
`"%" + strings.TrimPrefix(host, "%")`, executes the query (the Go
query honours the context's cancellation) and converts the rows.
Returns the performed store actions together with the result. -/
def ReadFileContext (env : Env) (ctx : Context) (file host : String) :
    List Action × Except Err (List HttpCookie) :=
  let driver := driverName env.drivers
  if driver = "" then ([], Except.error Err.noDriver)
  else
    match env.openErr with
    | some e => ([Action.openStore file], Except.error (Err.openFail e))
    | none =>
      if host = "" then
        let tr := [Action.openStore file, Action.queryAll]
        if ctx.cancelled then (tr, Except.error Err.ctxCancelled)
        else
          match env.queryErr with
          | some e => (tr, Except.error (Err.queryFail e))
          | none => (tr, Except.ok (Convert env.db.cookies))
      else
        let pattern := "%" ++ trimLeading host "%"
        let tr := [Action.openStore file, Action.queryLikeHost pattern]
        if ctx.cancelled then (tr, Except.error Err.ctxCancelled)
        else
          match env.queryErr with
          | some e => (tr, Except.error (Err.queryFail e))
          | none => (tr, Except.ok (Convert (env.db.cookiesLikeHost pattern)))

/-- The fields of Go `net/url.URL` used by the package. Values of this
type model the result of `url.Parse`, which lowercases the scheme it
returns (`url.Scheme = strings.ToLower(url.Scheme)` in `net/url`);
hypotheses state this where a theorem relies on it. -/
structure URL where
  Scheme : String
  Host : String
deriving DecidableEq, Repr

/-- The cookie jar built by `cookiejar.New` and `jar.SetCookies(u,
cookies)`: records the target URL and the cookies handed to the jar,
in order. The jar's internal public-suffix scoping is the injected
collaborator's behaviour, outside this package. -/
structure CookieJar where
  url : URL
  cookies : List HttpCookie
deriving DecidableEq, Repr

/-- Embeds `Jar`: builds the jar and sets the supplied cookies for the
URL (`cookiejar.New` cannot fail for the fixed options used). -/
def Jar (u : URL) (cookies : List HttpCookie) : CookieJar :=
  { url := u, cookies := cookies }

/-- The scheme test of `ReadJarContext` / `ReadJarFilteredContext`:
`switch strings.ToLower(u.Scheme) { case "http", "https", "ws", "wss": }`. -/
def schemeOK (s : String) : Bool :=
  strToLower s == "http" || strToLower s == "https" ||
    strToLower s == "ws" || strToLower s == "wss"

/-- Embeds `ReadJarContext` (file-based variant) after URL parsing:
checks the scheme, reads the cookies for the URL's host and builds the
jar. -/
def ReadJarContext (env : Env) (ctx : Context) (file : String) (u : URL) :
    List Action × Except Err CookieJar :=
  if schemeOK u.Scheme then
    match ReadFileContext env ctx file u.Host with
    | (tr, Except.error e) => (tr, Except.error e)
    | (tr, Except.ok cookies) => (tr, Except.ok (Jar u cookies))
  else ([], Except.error (Err.invalidScheme u.Scheme))

/-- Embeds `ReadJarFilteredContext` (file-based variant) after URL
parsing: checks the scheme, reads the cookies for the URL's host,
keeps the cookies the filter func accepts (the loop appending `cookie`
whenever `f(cookie)` holds) and builds the jar from them. -/
def ReadJarFilteredContext (env : Env) (ctx : Context) (file : String)
    (u : URL) (f : HttpCookie → Bool) :
    List Action × Except Err CookieJar :=
  if schemeOK u.Scheme then
    match ReadFileContext env ctx file u.Host with
    | (tr, Except.error e) => (tr, Except.error e)
    | (tr, Except.ok cookies) => (tr, Except.ok (Jar u (cookies.filter f)))
  else ([], Except.error (Err.invalidScheme u.Scheme))

/-- One result of `os.ReadDir`: an entry name together with whether
the entry is a directory. -/
structure DirEntry where
  name : String
  isDir : Bool
deriving DecidableEq, Repr

/-- The file-system facts a retrieval call observes: the result of
`os.UserHomeDir` (`none` models failure) and of `os.ReadDir` per
directory. -/
structure FS where
  homeDir : Option String
  readDir : String → Except String (List DirEntry)

/-- Embeds `profileDir`: `filepath.Join(home, ".mozilla", "firefox")`
when the home directory is determinable, otherwise the empty string. -/
def profileDir (fs : FS) : String :=
  match fs.homeDir with
  | some dir => filepathJoin [dir, ".mozilla", "firefox"]
  | none => ""

/-- Embeds the `DefaultOpenParams` variable. -/
def DefaultOpenParams : String := "?nolock=1&immutable=1&mode=ro"

/-- The entry test of the scan loop in `cookiePath`:
`entry.IsDir() && strings.HasSuffix(name, ".default-release")`. -/
def isDefaultProfileEntry (ent : DirEntry) : Bool :=
  ent.isDir && strHasSuffix ent.name ".default-release"

/-- Embeds `cookiePath`: with an empty profile name, scans the base
directory and descends into the first subdirectory whose name ends in
`.default-release` (keeping the base directory itself when none
matches); then joins the profile name and `cookies.sqlite` onto the
chosen directory. -/
def cookiePath (fs : FS) (dir profile : String) : Except Err String :=
  if profile = "" then
    match fs.readDir dir with
    | Except.error e => Except.error (Err.readDirFail e)
    | Except.ok entries =>
      match entries.find? isDefaultProfileEntry with
      | some ent =>
        Except.ok (filepathJoin [filepathJoin [dir, ent.name], profile, "cookies.sqlite"])
      | none => Except.ok (filepathJoin [dir, profile, "cookies.sqlite"])
  else Except.ok (filepathJoin [dir, profile, "cookies.sqlite"])

/-- Embeds `ReadContext`: resolves the profile directory and the
cookie path, then delegates to `ReadFileContext` with the locator
`"file:" + cookiePath + DefaultOpenParams`. -/
def ReadContext (fs : FS) (env : Env) (ctx : Context) (profile host : String) :
    List Action × Except Err (List HttpCookie) :=
  if profileDir fs = "" then ([], Except.error Err.noProfileDir)
  else
    match cookiePath fs (profileDir fs) profile with
    | Except.error e => ([], Except.error e)
    | Except.ok cp =>
      ReadFileContext env ctx ("file:" ++ cp ++ DefaultOpenParams) host

/-- Embeds the profile-based `ReadJarFilteredContext` variant: like
the file-based one but retrieving through `ReadContext`. -/
def ReadJarFilteredContextProfile (fs : FS) (env : Env) (ctx : Context)
    (profile : String) (u : URL) (f : HttpCookie → Bool) :
    List Action × Except Err CookieJar :=
  if schemeOK u.Scheme then
    match ReadContext fs env ctx profile u.Host with
    | (tr, Except.error e) => (tr, Except.error e)
    | (tr, Except.ok cookies) => (tr, Except.ok (Jar u (cookies.filter f)))
  else ([], Except.error (Err.invalidScheme u.Scheme))

/-- Embeds `ReadJarFiltered`: although it receives a context argument,
its body calls `ReadJarFilteredContext(context.Background(), ...)`. -/
def ReadJarFiltered (fs : FS) (env : Env) (_ctx : Context) (profile : String)
    (u : URL) (f : HttpCookie → Bool) : List Action × Except Err CookieJar :=
  ReadJarFilteredContextProfile fs env Context.background profile u f

end FFCookies

namespace FFCookies

/-- Claim C1: `Convert` is order-preserving, length-preserving and
one-to-one: the output sequence has the length of the input sequence
and, at every index, the output cookie copies `name`, `value`, `path`,
`host` (into `Domain`), `isSecure` and `isHTTPOnly` from the input row
at the same index; no row is filtered or deduplicated, and the empty
input yields the empty output, not an error. -/
theorem convert_pointwise (res : List Cookie) :
    (Convert res).length = res.length ∧
    Convert ([] : List Cookie) = [] ∧
    ∀ i : Nat,
      ((Convert res)[i]?).map HttpCookie.Name = (res[i]?).map Cookie.name ∧
      ((Convert res)[i]?).map HttpCookie.Value = (res[i]?).map Cookie.value ∧
      ((Convert res)[i]?).map HttpCookie.Path = (res[i]?).map Cookie.path ∧
      ((Convert res)[i]?).map HttpCookie.Domain = (res[i]?).map Cookie.host ∧
      ((Convert res)[i]?).map HttpCookie.Secure = (res[i]?).map Cookie.isSecure ∧
      ((Convert res)[i]?).map HttpCookie.HttpOnly = (res[i]?).map Cookie.isHTTPOnly := by
  refine ⟨by simp [Convert], rfl, fun i => ?_⟩
  have hm : (Convert res)[i]? = (res[i]?).map convertOne := by
    simp [Convert]
  rw [hm]
  cases res[i]? with
  | none => simp
  | some c => simp [convertOne]

/-- Claim C8: `Convert` sets `Expires` to the absolute instant
`epoch + expiry` seconds (`time.Unix(expiry, 0)`); in particular a row
with `expiry = 0` converts to a cookie whose `Expires` is exactly the
Unix epoch instant. -/
theorem convert_expires (res : List Cookie) (i : Nat) (c : Cookie)
    (h : res[i]? = some c) :
    ((Convert res)[i]?).map HttpCookie.Expires = some (unixEpoch + c.expiry) ∧
    ((Convert res)[i]?).map HttpCookie.Expires
      = some (if c.expiry = 0 then unixEpoch else unixEpoch + c.expiry) := by
  have hm : (Convert res)[i]? = some (convertOne c) := by
    simp [Convert, h]
  rw [hm]
  constructor
  · simp [convertOne, timeUnix]
  · by_cases h0 : c.expiry = 0
    · simp [convertOne, timeUnix, h0, unixEpoch]
    · simp [convertOne, timeUnix, h0]

theorem leadingWildcards_cons_pct (cs : List Char) :
    leadingWildcards ('%' :: cs) = 1 + leadingWildcards cs := by
  simp [leadingWildcards, List.takeWhile_cons]
  omega

theorem leadingWildcards_cons_ne (c : Char) (cs : List Char) (hc : c ≠ '%') :
    leadingWildcards (c :: cs) = 0 := by
  simp [leadingWildcards, List.takeWhile_cons, hc]

theorem leadingWildcards_norm (l : List Char) :
    leadingWildcards ('%' :: (if strHasPre ['%'] l then l.drop 1 else l))
      = max 1 (leadingWildcards l) := by
  rw [leadingWildcards_cons_pct]
  cases l with
  | nil => simp [strHasPre, leadingWildcards]
  | cons c cs =>
    by_cases hc : c = '%'
    · subst hc
      have hsp : strHasPre ['%'] ('%' :: cs) = true := by simp [strHasPre]
      rw [leadingWildcards_cons_pct]
      simp [hsp]
    · have hsp : strHasPre ['%'] (c :: cs) = false := by
        have hb : ('%' == c) = false := beq_eq_false_iff_ne.mpr (Ne.symm hc)
        simp [strHasPre, hb]
      simp [hsp, leadingWildcards_cons_ne c cs hc]

theorem toList_append (a b : String) : (a ++ b).toList = a.toList ++ b.toList := by
  simp [String.toList, String.data_append]

theorem toList_asString (l : List Char) : (List.asString l).toList = l := rfl

theorem trimLeading_pct_toList (s : String) :
    ("%" ++ trimLeading s "%").toList
      = '%' :: (if strHasPre ['%'] s.toList then s.toList.drop 1 else s.toList) := by
  rw [toList_append]
  unfold trimLeading
  have hpre : ("%" : String).toList = ['%'] := rfl
  rw [hpre]
  by_cases hb : strHasPre ['%'] s.toList
  · rw [if_pos hb, if_pos hb, toList_asString]
    rfl
  · rw [if_neg hb, if_neg hb]
    rfl

theorem pattern_wildcard_count (host : String) :
    leadingWildcardCount ("%" ++ trimLeading host "%")
      = max 1 (leadingWildcardCount host) := by
  unfold leadingWildcardCount
  rw [trimLeading_pct_toList]
  exact leadingWildcards_norm host.toList

/-- Environment without any sqlite driver registered. -/
def exEnvNoDriver : Env :=
  { drivers := ["postgres"]
    openErr := none
    queryErr := none
    db := { cookies := [], cookiesLikeHost := fun _ => [] } }

/-- Environment with a sqlite driver and a working store serving
`exRow` to every query. -/
def exEnv : Env :=
  { drivers := ["sqlite3"]
    openErr := none
    queryErr := none
    db := { cookies := [exRow], cookiesLikeHost := fun _ => [exRow] } }

/-- Witness for `convert_expires` at a concrete row with expiry 0. -/
theorem convert_expires_witness :
    [exRowZero][0]? = some exRowZero ∧
    (((Convert [exRowZero])[0]?).map HttpCookie.Expires
        = some (unixEpoch + exRowZero.expiry) ∧
      ((Convert [exRowZero])[0]?).map HttpCookie.Expires
        = some (if exRowZero.expiry = 0 then unixEpoch
            else unixEpoch + exRowZero.expiry)) :=
  ⟨rfl, convert_expires [exRowZero] 0 exRowZero rfl⟩

/-- Claim C2 counterexample: for the host filter `"%%example.com"` the
effective pattern is `"%%example.com"`, which has two leading wildcard
characters, not exactly one as the claim states for every non-empty
filter. -/
theorem readfile_pattern_counterexample :
    (ReadFileContext exEnv Context.background "cookies.sqlite" "%%example.com").1
      = [Action.openStore "cookies.sqlite",
          Action.queryLikeHost "%%example.com"] ∧
    ¬ leadingWildcardCount "%%example.com" = 1 := by
  constructor
  · decide
  · decide

/-- Claim C2 (amended): when `hostFilter` is empty the fetch-all query
is used; otherwise the filter is normalized by stripping at most one
leading `%` and prepending `%`, so the effective pattern has
`max 1 k` leading wildcards when the filter has `k` — exactly one
whenever the filter has at most one; in particular `"%example.com"`
and `"example.com"` both yield `"%example.com"`. -/
theorem readfile_query_selection (env : Env) (ctx : Context) (file host : String)
    (hd : driverName env.drivers ≠ "") (ho : env.openErr = none) :
    (ReadFileContext env ctx file host).1
      = (if host = "" then [Action.openStore file, Action.queryAll]
          else [Action.openStore file,
            Action.queryLikeHost ("%" ++ trimLeading host "%")]) ∧
    leadingWildcardCount ("%" ++ trimLeading host "%")
      = max 1 (leadingWildcardCount host) ∧
    "%" ++ trimLeading "%example.com" "%" = "%example.com" ∧
    "%" ++ trimLeading "example.com" "%" = "%example.com" := by
  refine ⟨?_, pattern_wildcard_count host, by decide, by decide⟩
  unfold ReadFileContext
  rw [if_neg hd, ho]
  by_cases hh : host = ""
  · rw [if_pos hh, if_pos hh]
    cases ctx.cancelled
    · cases env.queryErr <;> simp
    · simp
  · rw [if_neg hh, if_neg hh]
    cases ctx.cancelled
    · cases env.queryErr <;> simp
    · simp

/-- Witness for `readfile_query_selection` with a registered driver, a
working store, and the host filter `"example.com"`. -/
theorem readfile_query_selection_witness :
    (driverName exEnv.drivers ≠ "" ∧ exEnv.openErr = none) ∧
    ((ReadFileContext exEnv Context.background "cookies.sqlite" "example.com").1
        = (if "example.com" = ""
            then [Action.openStore "cookies.sqlite", Action.queryAll]
            else [Action.openStore "cookies.sqlite",
              Action.queryLikeHost ("%" ++ trimLeading "example.com" "%")]) ∧
      leadingWildcardCount ("%" ++ trimLeading "example.com" "%")
        = max 1 (leadingWildcardCount "example.com") ∧
      "%" ++ trimLeading "%example.com" "%" = "%example.com" ∧
      "%" ++ trimLeading "example.com" "%" = "%example.com") :=
  ⟨⟨by decide, rfl⟩,
    readfile_query_selection exEnv Context.background "cookies.sqlite"
      "example.com" (by decide) rfl⟩

/-- Claim C6: when no driver named `sqlite3` or `sqlite` is registered,
`ReadFileContext` returns the configuration error without performing
any store action at all (in particular it never opens the store); the
embedded function is total, so no panic is possible. -/
theorem readfile_requires_driver (env : Env) (ctx : Context) (file host : String)
    (h3 : "sqlite3" ∉ env.drivers) (h1 : "sqlite" ∉ env.drivers) :
    driverName env.drivers = "" ∧
    ReadFileContext env ctx file host = ([], Except.error Err.noDriver) := by
  have hd : driverName env.drivers = "" := by
    unfold driverName
    have hn : env.drivers.find? (fun n => n == "sqlite3" || n == "sqlite") = none := by
      rw [List.find?_eq_none]
      intro x hx
      simp only [Bool.or_eq_true, beq_iff_eq, not_or]
      constructor
      · intro hx3
        exact h3 (hx3 ▸ hx)
      · intro hx1
        exact h1 (hx1 ▸ hx)
    rw [hn]
  refine ⟨hd, ?_⟩
  unfold ReadFileContext
  rw [if_pos hd]

/-- Cookie row named `n`, otherwise like `exRow`. -/
def rowNamed (n : String) : Cookie :=
  { exRow with name := n }

/-- Environment whose store serves rows named `a`, `b`, `c` to every
query, in that order. -/
def exEnvABC : Env :=
  { drivers := ["sqlite3"]
    openErr := none
    queryErr := none
    db := { cookies := [rowNamed "a", rowNamed "b", rowNamed "c"]
            cookiesLikeHost := fun _ => [rowNamed "a", rowNamed "b", rowNamed "c"] } }

/-- Example https URL. -/
def exURL : URL := { Scheme := "https", Host := "example.com" }

/-- Example URL with an uppercase scheme, as a caller may write it. -/
def exURLUpper : URL := { Scheme := "HTTPS", Host := "example.com" }

/-- Example URL with the unsupported `ftp` scheme. -/
def exURLFtp : URL := { Scheme := "ftp", Host := "example.com" }

/-- The filter predicate `Name != "b"` of the claim. -/
def notB : HttpCookie → Bool := fun c => !(c.Name == "b")

/-- How `ReadJarContext` unwraps the retrieval result: the jar is built
exactly on the success path. -/
theorem readjar_delegates (env : Env) (ctx : Context) (file : String) (u : URL)
    (hs : schemeOK u.Scheme = true) :
    ReadJarContext env ctx file u
      = ((ReadFileContext env ctx file u.Host).1,
          ((ReadFileContext env ctx file u.Host).2).map (Jar u)) := by
  unfold ReadJarContext
  rw [if_pos hs]
  obtain ⟨tr, r⟩ := ReadFileContext env ctx file u.Host
  cases r <;> simp [Except.map]

/-- How `ReadJarFilteredContext` unwraps the retrieval result: the jar
is built from the filtered cookies exactly on the success path. -/
theorem readjarfiltered_delegates (env : Env) (ctx : Context) (file : String)
    (u : URL) (f : HttpCookie → Bool) (hs : schemeOK u.Scheme = true) :
    ReadJarFilteredContext env ctx file u f
      = ((ReadFileContext env ctx file u.Host).1,
          ((ReadFileContext env ctx file u.Host).2).map
            (fun cs => Jar u (cs.filter f))) := by
  unfold ReadJarFilteredContext
  rw [if_pos hs]
  obtain ⟨tr, r⟩ := ReadFileContext env ctx file u.Host
  cases r <;> simp [Except.map]

/-- Witness for `readfile_requires_driver` on an environment whose only
registered driver is `postgres`. -/
theorem readfile_requires_driver_witness :
    ("sqlite3" ∉ exEnvNoDriver.drivers ∧ "sqlite" ∉ exEnvNoDriver.drivers) ∧
    (driverName exEnvNoDriver.drivers = "" ∧
      ReadFileContext exEnvNoDriver Context.background "cookies.sqlite" ""
        = ([], Except.error Err.noDriver)) :=
  ⟨⟨by decide, by decide⟩,
    readfile_requires_driver exEnvNoDriver Context.background "cookies.sqlite" ""
      (by decide) (by decide)⟩

/-- Claim C3: for a parsed URL (whose scheme `url.Parse` has already
lowercased), jar construction fails with the invalid-scheme error
exactly when the scheme is not one of http, https, ws, wss; on failure
no store action is performed, and for a supported scheme it proceeds
to retrieve the cookies for the URL's host and wrap them in a jar. In
particular `ftp` is rejected and `https` accepted. -/
theorem readjar_scheme_check (env : Env) (ctx : Context) (file : String) (u : URL)
    (f : HttpCookie → Bool)
    (hlower : strToLower u.Scheme = u.Scheme) :
    (schemeOK u.Scheme = true ↔
      (u.Scheme = "http" ∨ u.Scheme = "https" ∨ u.Scheme = "ws" ∨ u.Scheme = "wss")) ∧
    (if schemeOK u.Scheme then
      ReadJarContext env ctx file u
        = ((ReadFileContext env ctx file u.Host).1,
            ((ReadFileContext env ctx file u.Host).2).map (Jar u)) ∧
      ReadJarFilteredContext env ctx file u f
        = ((ReadFileContext env ctx file u.Host).1,
            ((ReadFileContext env ctx file u.Host).2).map
              (fun cs => Jar u (cs.filter f)))
    else
      ReadJarContext env ctx file u
        = ([], Except.error (Err.invalidScheme u.Scheme)) ∧
      ReadJarFilteredContext env ctx file u f
        = ([], Except.error (Err.invalidScheme u.Scheme))) ∧
    schemeOK "ftp" = false ∧ schemeOK "https" = true := by
  refine ⟨?_, ?_, by decide, by decide⟩
  · unfold schemeOK
    rw [hlower]
    simp [or_assoc]
  · by_cases hs : schemeOK u.Scheme
    · rw [if_pos hs]
      exact ⟨readjar_delegates env ctx file u hs,
        readjarfiltered_delegates env ctx file u f hs⟩
    · rw [if_neg hs]
      constructor
      · unfold ReadJarContext
        rw [if_neg hs]
      · unfold ReadJarFilteredContext
        rw [if_neg hs]

/-- Witness for `readjar_scheme_check` at the https URL of the claim. -/
theorem readjar_scheme_check_witness :
    strToLower exURL.Scheme = exURL.Scheme ∧
    ((schemeOK exURL.Scheme = true ↔
        (exURL.Scheme = "http" ∨ exURL.Scheme = "https" ∨
          exURL.Scheme = "ws" ∨ exURL.Scheme = "wss")) ∧
      (if schemeOK exURL.Scheme then
        ReadJarContext exEnv Context.background "cookies.sqlite" exURL
          = ((ReadFileContext exEnv Context.background "cookies.sqlite" exURL.Host).1,
              ((ReadFileContext exEnv Context.background "cookies.sqlite" exURL.Host).2).map
                (Jar exURL)) ∧
        ReadJarFilteredContext exEnv Context.background "cookies.sqlite" exURL notB
          = ((ReadFileContext exEnv Context.background "cookies.sqlite" exURL.Host).1,
              ((ReadFileContext exEnv Context.background "cookies.sqlite" exURL.Host).2).map
                (fun cs => Jar exURL (cs.filter notB)))
      else
        ReadJarContext exEnv Context.background "cookies.sqlite" exURL
          = ([], Except.error (Err.invalidScheme exURL.Scheme)) ∧
        ReadJarFilteredContext exEnv Context.background "cookies.sqlite" exURL notB
          = ([], Except.error (Err.invalidScheme exURL.Scheme))) ∧
      schemeOK "ftp" = false ∧ schemeOK "https" = true) :=
  ⟨by decide,
    readjar_scheme_check exEnv Context.background "cookies.sqlite" exURL notB
      (by decide)⟩

/-- Claim C9: the scheme check lowercases the scheme before comparing,
so any case variant of http, https, ws or wss passes the check and the
call proceeds to the host-scoped retrieval instead of failing with the
invalid-scheme error. -/
theorem readjar_scheme_case_insensitive (env : Env) (ctx : Context) (file : String)
    (u : URL)
    (h : strToLower u.Scheme = "http" ∨ strToLower u.Scheme = "https" ∨
      strToLower u.Scheme = "ws" ∨ strToLower u.Scheme = "wss") :
    schemeOK u.Scheme = true ∧
    ReadJarContext env ctx file u
      = ((ReadFileContext env ctx file u.Host).1,
          ((ReadFileContext env ctx file u.Host).2).map (Jar u)) := by
  have hs : schemeOK u.Scheme = true := by
    unfold schemeOK
    rcases h with h | h | h | h <;> simp [h]
  exact ⟨hs, readjar_delegates env ctx file u hs⟩

/-- Witness for `readjar_scheme_case_insensitive` at the uppercase
scheme `HTTPS` of the claim. -/
theorem readjar_scheme_case_insensitive_witness :
    (strToLower exURLUpper.Scheme = "http" ∨ strToLower exURLUpper.Scheme = "https" ∨
      strToLower exURLUpper.Scheme = "ws" ∨ strToLower exURLUpper.Scheme = "wss") ∧
    (schemeOK exURLUpper.Scheme = true ∧
      ReadJarContext exEnv Context.background "cookies.sqlite" exURLUpper
        = ((ReadFileContext exEnv Context.background "cookies.sqlite" exURLUpper.Host).1,
            ((ReadFileContext exEnv Context.background "cookies.sqlite"
                exURLUpper.Host).2).map (Jar exURLUpper))) :=
  ⟨by decide,
    readjar_scheme_case_insensitive exEnv Context.background "cookies.sqlite"
      exURLUpper (by decide)⟩

/-- Claim C5: `ReadJarFilteredContext` hands the jar exactly the
retrieved cookies the predicate accepts, as an order-preserving
sub-sequence of the retrieved sequence; on the cookies named `a`, `b`,
`c` with predicate `Name != "b"`, the jar receives exactly the cookies
named `a` and `c`, in that order. -/
theorem readjarfiltered_filters (env : Env) (ctx : Context) (file : String)
    (u : URL) (f : HttpCookie → Bool) (cookies : List HttpCookie)
    (hs : schemeOK u.Scheme = true)
    (hres : (ReadFileContext env ctx file u.Host).2 = Except.ok cookies) :
    (ReadJarFilteredContext env ctx file u f).2
      = Except.ok (Jar u (cookies.filter f)) ∧
    List.Sublist (cookies.filter f) cookies ∧
    ((ReadJarFilteredContext exEnvABC Context.background "cookies.sqlite"
          exURL notB).2).map (fun j => j.cookies.map HttpCookie.Name)
      = Except.ok ["a", "c"] := by
  refine ⟨?_, List.filter_sublist cookies, by rfl⟩
  unfold ReadJarFilteredContext
  rw [if_pos hs]
  rcases hE : ReadFileContext env ctx file u.Host with ⟨tr, r⟩
  rw [hE] at hres
  have hr : r = Except.ok cookies := hres
  subst hr
  rfl

/-- Witness for `readjarfiltered_filters` on the `a`, `b`, `c` store
with predicate `Name != "b"`. -/
theorem readjarfiltered_filters_witness :
    (schemeOK exURL.Scheme = true ∧
      (ReadFileContext exEnvABC Context.background "cookies.sqlite" exURL.Host).2
        = Except.ok (Convert [rowNamed "a", rowNamed "b", rowNamed "c"])) ∧
    ((ReadJarFilteredContext exEnvABC Context.background "cookies.sqlite" exURL notB).2
        = Except.ok (Jar exURL
            ((Convert [rowNamed "a", rowNamed "b", rowNamed "c"]).filter notB)) ∧
      List.Sublist ((Convert [rowNamed "a", rowNamed "b", rowNamed "c"]).filter notB)
        (Convert [rowNamed "a", rowNamed "b", rowNamed "c"]) ∧
      ((ReadJarFilteredContext exEnvABC Context.background "cookies.sqlite"
            exURL notB).2).map (fun j => j.cookies.map HttpCookie.Name)
        = Except.ok ["a", "c"]) :=
  ⟨⟨by decide, by rfl⟩,
    readjarfiltered_filters exEnvABC Context.background "cookies.sqlite" exURL notB
      (Convert [rowNamed "a", rowNamed "b", rowNamed "c"]) (by decide) (by rfl)⟩

theorem find?_of_filter_singleton {α : Type} (p : α → Bool) (l : List α) (a : α)
    (h : l.filter p = [a]) : l.find? p = some a := by
  induction l with
  | nil => simp at h
  | cons x xs ih =>
    cases hx : p x with
    | true =>
      rw [List.filter_cons_of_pos hx] at h
      rw [List.find?_cons_of_pos _ hx]
      simp at h
      exact congrArg some h.1
    | false =>
      rw [List.filter_cons_of_neg (by simp [hx])] at h
      rw [List.find?_cons_of_neg _ (by simp [hx])]
      exact ih h

theorem find?_of_filter_nil {α : Type} (p : α → Bool) (l : List α)
    (h : l.filter p = []) : l.find? p = none := by
  rw [List.find?_eq_none]
  intro x hx hpx
  have : x ∈ l.filter p := List.mem_filter.mpr ⟨hx, hpx⟩
  rw [h] at this
  simp at this

theorem ne_empty_of_toList_ne_nil (s : String) (h : s.toList ≠ []) : s ≠ "" := by
  intro he
  subst he
  exact h rfl

theorem append_slash_ne_empty (a b : String) : a ++ "/" ++ b ≠ "" := by
  apply ne_empty_of_toList_ne_nil
  rw [toList_append, toList_append]
  simp [String.toList]

theorem filepathJoin_two (a b : String) (ha : a ≠ "") (hb : b ≠ "") :
    filepathJoin [a, b] = a ++ "/" ++ b := by
  have ha2 : (a == "") = false := beq_eq_false_iff_ne.mpr ha
  have hb2 : (b == "") = false := beq_eq_false_iff_ne.mpr hb
  simp [filepathJoin, List.filter, ha2, hb2, joinNonEmpty]

theorem filepathJoin_mid_empty (a b : String) (ha : a ≠ "") (hb : b ≠ "") :
    filepathJoin [a, "", b] = a ++ "/" ++ b := by
  have ha2 : (a == "") = false := beq_eq_false_iff_ne.mpr ha
  have hb2 : (b == "") = false := beq_eq_false_iff_ne.mpr hb
  simp [filepathJoin, List.filter, ha2, hb2, joinNonEmpty]

theorem suffix_entry_name_ne_empty (ent : DirEntry)
    (h : isDefaultProfileEntry ent = true) : ent.name ≠ "" := by
  intro he
  unfold isDefaultProfileEntry at h
  rw [he] at h
  have : strHasSuffix "" ".default-release" = false := by decide
  rw [this] at h
  simp at h

/-- Claim C4: resolving the cookie path for an empty profile name
descends into the unique `.default-release` subdirectory when one
exists, giving `<base>/<thatSubdir>/cookies.sqlite`, and otherwise
falls back to the base directory itself, giving
`<base>/cookies.sqlite` rather than an error. -/
theorem cookiepath_resolution (fs fs2 : FS) (dir : String)
    (entries entries2 : List DirEntry) (ent : DirEntry)
    (hdir : dir ≠ "")
    (hrd : fs.readDir dir = Except.ok entries)
    (hone : entries.filter isDefaultProfileEntry = [ent])
    (hrd2 : fs2.readDir dir = Except.ok entries2)
    (hnone : entries2.filter isDefaultProfileEntry = []) :
    cookiePath fs dir "" = Except.ok (dir ++ "/" ++ ent.name ++ "/" ++ "cookies.sqlite") ∧
    cookiePath fs2 dir "" = Except.ok (dir ++ "/" ++ "cookies.sqlite") := by
  have hpent : isDefaultProfileEntry ent = true := by
    have hm : ent ∈ entries.filter isDefaultProfileEntry := by
      rw [hone]
      simp
    exact (List.mem_filter.mp hm).2
  have hname : ent.name ≠ "" := suffix_entry_name_ne_empty ent hpent
  constructor
  · have hfind : entries.find? isDefaultProfileEntry = some ent :=
      find?_of_filter_singleton _ _ _ hone
    unfold cookiePath
    rw [if_pos rfl, hrd]
    simp only [hfind]
    rw [filepathJoin_two dir ent.name hdir hname]
    rw [filepathJoin_mid_empty _ "cookies.sqlite" (append_slash_ne_empty dir ent.name)
      (by decide)]
  · have hfind : entries2.find? isDefaultProfileEntry = none :=
      find?_of_filter_nil _ _ hnone
    unfold cookiePath
    rw [if_pos rfl, hrd2]
    simp only [hfind]
    rw [filepathJoin_mid_empty dir "cookies.sqlite" hdir (by decide)]

/-- Directory entries used by witnesses: one matching default-release
profile directory, and one non-matching set. -/
def exEntry : DirEntry := { name := "abcd1234.default-release", isDir := true }

/-- File system whose base profile directory holds exactly one
`.default-release` subdirectory. -/
def exFS : FS :=
  { homeDir := some "/home/user"
    readDir := fun _ => Except.ok [exEntry] }

/-- File system whose base profile directory holds no matching
subdirectory. -/
def exFSNoMatch : FS :=
  { homeDir := some "/home/user"
    readDir := fun _ => Except.ok [{ name := "chrome", isDir := true }] }

/-- Witness for `cookiepath_resolution` on concrete directories. -/
theorem cookiepath_resolution_witness :
    ("/base" ≠ "" ∧
      exFS.readDir "/base" = Except.ok [exEntry] ∧
      [exEntry].filter isDefaultProfileEntry = [exEntry] ∧
      exFSNoMatch.readDir "/base" = Except.ok [{ name := "chrome", isDir := true }] ∧
      [({ name := "chrome", isDir := true } : DirEntry)].filter isDefaultProfileEntry
        = []) ∧
    (cookiePath exFS "/base" ""
        = Except.ok ("/base" ++ "/" ++ exEntry.name ++ "/" ++ "cookies.sqlite") ∧
      cookiePath exFSNoMatch "/base" ""
        = Except.ok ("/base" ++ "/" ++ "cookies.sqlite")) :=
  ⟨⟨by decide, rfl, by decide, rfl, by decide⟩,
    cookiepath_resolution exFS exFSNoMatch "/base"
      [exEntry] [{ name := "chrome", isDir := true }] exEntry
      (by decide) rfl (by decide) rfl (by decide)⟩

/-- Claim C7: `ReadContext` always passes to `ReadFileContext` the
store locator `"file:" + <resolved cookie path> + DefaultOpenParams`,
whose option string is exactly `?nolock=1&immutable=1&mode=ro`
(no-lock, immutable, read-only). -/
theorem readcontext_locator (fs : FS) (env : Env) (ctx : Context)
    (profile host cp : String)
    (hpd : profileDir fs ≠ "")
    (hcp : cookiePath fs (profileDir fs) profile = Except.ok cp) :
    DefaultOpenParams = "?nolock=1&immutable=1&mode=ro" ∧
    ReadContext fs env ctx profile host
      = ReadFileContext env ctx ("file:" ++ cp ++ DefaultOpenParams) host := by
  refine ⟨rfl, ?_⟩
  unfold ReadContext
  rw [if_neg hpd, hcp]

/-- Witness for `readcontext_locator` with a concrete file system and
explicit profile name `p1`. -/
theorem readcontext_locator_witness :
    (profileDir exFS ≠ "" ∧
      cookiePath exFS (profileDir exFS) "p1"
        = Except.ok "/home/user/.mozilla/firefox/p1/cookies.sqlite") ∧
    (DefaultOpenParams = "?nolock=1&immutable=1&mode=ro" ∧
      ReadContext exFS exEnv Context.background "p1" "example.com"
        = ReadFileContext exEnv Context.background
            ("file:" ++ "/home/user/.mozilla/firefox/p1/cookies.sqlite"
              ++ DefaultOpenParams) "example.com") :=
  ⟨⟨by decide, by rfl⟩,
    readcontext_locator exFS exEnv Context.background "p1" "example.com"
      "/home/user/.mozilla/firefox/p1/cookies.sqlite" (by decide) (by rfl)⟩

/-- Claim C10: `ReadJarFiltered` discards the context it receives and
always runs with `context.Background()`: its result coincides with
`ReadJarFilteredContext(context.Background(), ...)` for every caller
context and is independent of that context, so the caller's context
can never cancel the call — concretely, a cancelled context makes the
context-honouring variant fail with the cancellation error while
`ReadJarFiltered` still succeeds. -/
theorem readjarfiltered_ignores_context (fs : FS) (env : Env) (ctx ctx2 : Context)
    (profile : String) (u : URL) (f : HttpCookie → Bool) :
    ReadJarFiltered fs env ctx profile u f
      = ReadJarFilteredContextProfile fs env Context.background profile u f ∧
    ReadJarFiltered fs env ctx profile u f
      = ReadJarFiltered fs env ctx2 profile u f ∧
    (ReadJarFilteredContextProfile exFS exEnv { cancelled := true } "p1" exURL notB).2
      = Except.error Err.ctxCancelled ∧
    (ReadJarFiltered exFS exEnv { cancelled := true } "p1" exURL notB).2
      = Except.ok (Jar exURL ((Convert [exRow]).filter notB)) := by
  exact ⟨rfl, rfl, by rfl, by rfl⟩

end FFCookies
